import Mathlib

/-!
Shallow embedding of the detection-to-selection-to-capture pipeline of
`src/main.js` (random student picker).

JavaScript numbers are modelled as `ℚ`; `Math.floor` is `Int.floor` (`⌊·⌋`).
The video element is modelled by its pixel dimensions `vw`/`vh`
(`video.videoWidth`/`video.videoHeight`, `0` standing for the falsy
"metadata not loaded yet" value) together with a pixel function
`framePixel : ℤ → ℤ → ℕ` giving the colour of the source pixel at a
column/row pair.  `Math.random()` is modelled by an explicit parameter
`rand`, and `performance.now()` by an explicit parameter `now`.
-/

/-- A bounding box `[x, y, w, h]` in source-frame pixel coordinates, as
produced by the detector (`p.bbox` in `main.js`). -/
structure BBox where
  x : ℚ
  y : ℚ
  w : ℚ
  h : ℚ
deriving DecidableEq

/-- One object reported by the detector: class label, confidence score and
bounding box (`p.class`, `p.score`, `p.bbox` in `main.js`). -/
structure Detection where
  classLabel : String
  score : ℚ
  bbox : BBox
deriving DecidableEq

/-- The highlight duration used at `main.js:252`:
`selectUntil = performance.now() + 3500`. -/
def fixedHighlightDurationMs : ℚ := 3500

/-- The filter step of `draw` (`main.js:80-82`):
`preds.filter((p) => p.class === "person" && p.score >= minScore)`. -/
def filterPeople (preds : List Detection) (minScore : ℚ) : List Detection :=
  preds.filter fun p => decide (p.classLabel = "person") && decide (minScore ≤ p.score)

/-- The per-candidate highlight test of `draw` (`main.js:91`):
`selectedIdx === i && performance.now() < selectUntil`.
`selectedIdx = none` models the JavaScript `null`. -/
def isChosen (selectedIdx : Option ℕ) (i : ℕ) (now selectUntil : ℚ) : Bool :=
  decide (selectedIdx = some i) && decide (now < selectUntil)

/-- One rectangle drawn on the overlay by `draw` (`main.js:84-122`): the
scaled geometry and whether it was rendered with the highlight style.
Label text metrics belong to the external canvas API and are not modelled. -/
structure DrawnBox where
  rx : ℚ
  ry : ℚ
  rw : ℚ
  rh : ℚ
  chosen : Bool
deriving DecidableEq

/-- The `draw` function (`main.js:70-123`): rebuilds `currentPeople` from the
raw predictions and draws every candidate, scaled from video space to canvas
space (with the `|| 1280` / `|| 720` fallbacks of `main.js:73-74`).  Returns
the new `currentPeople` list and the list of drawn rectangles in order. -/
def draw (preds : List Detection) (minScore : ℚ) (selectedIdx : Option ℕ)
    (selectUntil now : ℚ) (vw vh cw ch : ℕ) : List Detection × List DrawnBox :=
  let vwq : ℚ := if vw = 0 then 1280 else vw
  let vhq : ℚ := if vh = 0 then 720 else vh
  let scaleX : ℚ := cw / vwq
  let scaleY : ℚ := ch / vhq
  let currentPeople := filterPeople preds minScore
  (currentPeople,
    currentPeople.enum.map fun ip =>
      { rx := ip.2.bbox.x * scaleX, ry := ip.2.bbox.y * scaleY,
        rw := ip.2.bbox.w * scaleX, rh := ip.2.bbox.h * scaleY,
        chosen := isChosen selectedIdx ip.1 now selectUntil })

/-- `sx = Math.max(0, Math.floor(x))` (`main.js:135`). -/
def startX (det : Detection) : ℤ := max 0 ⌊det.bbox.x⌋

/-- `sy = Math.max(0, Math.floor(y))` (`main.js:136`). -/
def startY (det : Detection) : ℤ := max 0 ⌊det.bbox.y⌋

/-- `sw = Math.min(vw - sx, Math.floor(w))` (`main.js:137`). -/
def clampedW (det : Detection) (vw : ℕ) : ℤ :=
  min ((vw : ℤ) - startX det) ⌊det.bbox.w⌋

/-- `sh = Math.min(vh - sy, Math.floor(h))` (`main.js:138`). -/
def clampedH (det : Detection) (vh : ℕ) : ℤ :=
  min ((vh : ℤ) - startY det) ⌊det.bbox.h⌋

/-- The offscreen canvas produced by `captureSelectedCrop`: its pixel
dimensions and a pixel function.  Encoding to a PNG data URL
(`off.toDataURL`) is an external canvas capability and is modelled as the
image itself. -/
structure CapturedImage where
  width : ℤ
  height : ℤ
  pixel : ℤ → ℤ → ℕ

/-- `captureSelectedCrop` (`main.js:128-158`): clamps the detection's box to
the video bounds, returns `none` (the JavaScript `null`) when the dimensions
are unknown or the clamped box is degenerate, and otherwise copies the
clamped region 1:1 into an offscreen surface, horizontally mirrored when
`facingMode === "user"` (the `translate(sw, 0)`/`scale(-1, 1)` transform of
`main.js:150-151`). -/
def captureSelectedCrop (det : Detection) (vw vh : ℕ) (framePixel : ℤ → ℤ → ℕ)
    (facingMode : String) : Option CapturedImage :=
  if vw = 0 ∨ vh = 0 then none
  else if clampedW det vw ≤ 1 ∨ clampedH det vh ≤ 1 then none
  else if facingMode = "user" then
    some ⟨clampedW det vw, clampedH det vh,
      fun c r => framePixel (startX det + (clampedW det vw - 1 - c)) (startY det + r)⟩
  else
    some ⟨clampedW det vw, clampedH det vh,
      fun c r => framePixel (startX det + c) (startY det + r)⟩

/-- `Math.floor(Math.random() * currentPeople.length)` (`main.js:251`), with
the random draw `rand ∈ [0, 1)` made explicit. -/
def pickIndex (rand : ℚ) (n : ℕ) : ℕ := (⌊rand * n⌋).toNat

/-- The module-level mutable state of `main.js` that the pick handler reads
and writes (`running`, `minScore`, `facingMode`, `currentPeople`,
`selectedIdx`, `selectUntil`, `main.js:24-29`). -/
structure AppState where
  running : Bool
  minScore : ℚ
  facingMode : String
  currentPeople : List Detection
  selectedIdx : Option ℕ
  selectUntil : ℚ
deriving DecidableEq

/-- The toast shown by the pick handler when no candidate is available
(`main.js:238`). -/
def noStudentsToast : String := "No students detected. Adjust camera/angle."

/-- The `pickBtn` click handler (`main.js:236-259`) as a state transition:
given the state at click time, the random draw, the clock value at selection
time and the current frame, it returns the new state, the toast messages
shown in order, and the data passed to `showSpotlight` (`none` when
`captureSelectedCrop` returned `null`). -/
def pickHandler (s : AppState) (rand now : ℚ) (vw vh : ℕ)
    (framePixel : ℤ → ℤ → ℕ) : AppState × List String × Option CapturedImage :=
  if s.currentPeople.length = 0 then
    ({ s with selectedIdx := none }, [noStudentsToast], none)
  else
    let idx := pickIndex rand s.currentPeople.length
    ({ s with selectedIdx := some idx,
              selectUntil := now + fixedHighlightDurationMs },
      ["Picking in 3…", "2…", "1…", "🎉 Selected!"],
      (s.currentPeople[idx]?).bind fun chosen =>
        captureSelectedCrop chosen vw vh framePixel s.facingMode)

/-- A concrete in-bounds detection used to instantiate theorems. -/
def wDet : Detection := ⟨"person", 1, ⟨0, 0, 2, 2⟩⟩

/-- A concrete detection whose box lies fully right of a 4-pixel-wide frame
(`x = frameWidth + 10`). -/
def wOut : Detection := ⟨"person", 1, ⟨14, 0, 5, 5⟩⟩

/-- A concrete source-frame pixel function. -/
def wPix : ℤ → ℤ → ℕ := fun c r => (c + 2 * r).toNat

/-- A concrete state with one candidate. -/
def wState1 : AppState := ⟨true, 0, "user", [wDet], none, 0⟩

/-- A concrete state with no candidates but a previously stored selection. -/
def wEmptyState : AppState := ⟨true, 0, "user", [], some 2, 9⟩

/-- The mirrored capture of `wDet` from a 4×4 frame. -/
def wImgF : CapturedImage :=
  ⟨clampedW wDet 4, clampedH wDet 4,
    fun c r => wPix (startX wDet + (clampedW wDet 4 - 1 - c)) (startY wDet + r)⟩

/-- The unmirrored capture of `wDet` from a 4×4 frame. -/
def wImgR : CapturedImage :=
  ⟨clampedW wDet 4, clampedH wDet 4,
    fun c r => wPix (startX wDet + c) (startY wDet + r)⟩

/-- C1: for every list of raw detections and every threshold `t ∈ [0, 1]`,
the filter step returns exactly those detections whose class label equals
`"person"` and whose score is `≥ t`, as a subsequence of the input
preserving the detector-supplied order. -/
theorem C1_filter_exact (preds : List Detection) (t : ℚ)
    (h0 : 0 ≤ t) (h1 : t ≤ 1) :
    List.Sublist (filterPeople preds t) preds ∧
      ∀ d, d ∈ filterPeople preds t ↔
        d ∈ preds ∧ d.classLabel = "person" ∧ t ≤ d.score := by
  refine ⟨List.filter_sublist _, fun d => ?_⟩
  simp [filterPeople, List.mem_filter, and_assoc]

/-- Witness for C1 at `t = 1` on a one-detection list. -/
theorem C1_filter_exact_w :
    List.Sublist (filterPeople [wDet] 1) [wDet] ∧
      ∀ d, d ∈ filterPeople [wDet] 1 ↔
        d ∈ [wDet] ∧ d.classLabel = "person" ∧ (1 : ℚ) ≤ d.score :=
  C1_filter_exact [wDet] 1 zero_le_one le_rfl

/-- C7: filtering is monotonic in the threshold: for thresholds
`t1 ≤ t2` in `[0, 1]`, the candidate list produced with `t2` has no more
elements than the one produced with `t1`. -/
theorem C7_filter_monotone (preds : List Detection) (t1 t2 : ℚ)
    (h0 : 0 ≤ t1) (h1 : t2 ≤ 1) (h : t1 ≤ t2) :
    (filterPeople preds t2).length ≤ (filterPeople preds t1).length := by
  refine List.Sublist.length_le (List.monotone_filter_right preds ?_)
  intro a ha
  simp only [Bool.and_eq_true, decide_eq_true_eq] at ha ⊢
  exact ⟨ha.1, le_trans h ha.2⟩

/-- Witness for C7 at `t1 = 0`, `t2 = 1` on a one-detection list. -/
theorem C7_filter_monotone_w :
    (filterPeople [wDet] 1).length ≤ (filterPeople [wDet] 0).length :=
  C7_filter_monotone [wDet] 0 1 le_rfl le_rfl zero_le_one

/-- `captureSelectedCrop` returns `none` exactly on unknown dimensions or a
degenerate clamped box. -/
lemma captureSelectedCrop_eq_none_iff (det : Detection) (vw vh : ℕ)
    (pix : ℤ → ℤ → ℕ) (fm : String) :
    captureSelectedCrop det vw vh pix fm = none ↔
      vw = 0 ∨ vh = 0 ∨ clampedW det vw ≤ 1 ∨ clampedH det vh ≤ 1 := by
  unfold captureSelectedCrop
  by_cases h1 : vw = 0 ∨ vh = 0
  · simp [h1]
    tauto
  · rw [if_neg h1]
    by_cases h2 : clampedW det vw ≤ 1 ∨ clampedH det vh ≤ 1
    · simp [h2]
    · rw [if_neg h2]
      constructor
      · intro hcontr
        by_cases h3 : fm = "user" <;> simp [h3] at hcontr
      · intro hcases
        rcases hcases with h | h | h | h
        · exact absurd (Or.inl h) h1
        · exact absurd (Or.inr h) h1
        · exact absurd (Or.inl h) h2
        · exact absurd (Or.inr h) h2

/-- C2: `captureSelectedCrop` returns `none` exactly when the frame
dimensions are unknown or the clamped box has width or height `≤ 1`; in
particular a box lying fully right of the frame (`x ≥ frameWidth`, e.g.
`x = frameWidth + 10`) yields `none`.  The function is total, so no
exception is raised in any of these cases. -/
theorem C2_capture_none :
    (∀ (det : Detection) (vw vh : ℕ) (pix : ℤ → ℤ → ℕ) (fm : String),
        captureSelectedCrop det vw vh pix fm = none ↔
          vw = 0 ∨ vh = 0 ∨ clampedW det vw ≤ 1 ∨ clampedH det vh ≤ 1) ∧
    (∀ (det : Detection) (vw vh : ℕ) (pix : ℤ → ℤ → ℕ) (fm : String),
        (vw : ℚ) ≤ det.bbox.x →
          captureSelectedCrop det vw vh pix fm = none) := by
  refine ⟨captureSelectedCrop_eq_none_iff, ?_⟩
  intro det vw vh pix fm hx
  refine (captureSelectedCrop_eq_none_iff det vw vh pix fm).mpr ?_
  refine Or.inr (Or.inr (Or.inl ?_))
  have hfl : (vw : ℤ) ≤ ⌊det.bbox.x⌋ := Int.le_floor.mpr (by exact_mod_cast hx)
  have hsx : (vw : ℤ) ≤ startX det := le_trans hfl (le_max_right _ _)
  calc clampedW det vw ≤ (vw : ℤ) - startX det := min_le_left _ _
    _ ≤ 0 := by omega
    _ ≤ 1 := by omega

/-- Witness for C2 on a box at `x = frameWidth + 10` for a 4×4 frame. -/
theorem C2_capture_none_w :
    captureSelectedCrop wOut 4 4 wPix "user" = none :=
  C2_capture_none.2 wOut 4 4 wPix "user" (by norm_num [wOut])

/-- `pickIndex` lands in `[0, n)` whenever `rand ∈ [0, 1)` and `n ≠ 0`. -/
lemma pickIndex_lt (rand : ℚ) (n : ℕ) (h0 : 0 ≤ rand) (h1 : rand < 1)
    (hn : n ≠ 0) : pickIndex rand n < n := by
  have hnq : (0 : ℚ) < n := by exact_mod_cast Nat.pos_of_ne_zero hn
  have hmul : rand * n < n := by
    calc rand * n < 1 * n := mul_lt_mul_of_pos_right h1 hnq
      _ = n := one_mul _
  have hfl : ⌊rand * (n : ℚ)⌋ < (n : ℤ) := Int.floor_lt.mpr (by exact_mod_cast hmul)
  have hfl0 : 0 ≤ ⌊rand * (n : ℚ)⌋ := Int.floor_nonneg.mpr (by positivity)
  unfold pickIndex
  omega

/-- C3: for every non-empty candidate list of size `n` and random draw
`rand ∈ [0, 1)`, the pick handler stores an index in `[0, n)`. -/
theorem C3_pick_in_range (s : AppState) (rand now : ℚ) (vw vh : ℕ)
    (pix : ℤ → ℤ → ℕ) (h0 : 0 ≤ rand) (h1 : rand < 1)
    (hne : s.currentPeople ≠ []) :
    ∃ k, (pickHandler s rand now vw vh pix).1.selectedIdx = some k ∧
      k < s.currentPeople.length := by
  have hlen : s.currentPeople.length ≠ 0 := by
    simpa [List.length_eq_zero] using hne
  refine ⟨pickIndex rand s.currentPeople.length, ?_, ?_⟩
  · simp [pickHandler, hlen]
  · exact pickIndex_lt rand _ h0 h1 hlen

/-- Witness for C3 at `rand = 0` on a one-candidate state. -/
theorem C3_pick_in_range_w :
    ∃ k, (pickHandler wState1 0 0 4 4 wPix).1.selectedIdx = some k ∧
      k < wState1.currentPeople.length :=
  C3_pick_in_range wState1 0 0 4 4 wPix le_rfl zero_lt_one
    (by simp [wState1])

/-- C4: a pick at time `T` sets the expiry timestamp to
`T + fixedHighlightDurationMs` with `fixedHighlightDurationMs = 3500`, and
the renderer treats the selection as active iff the render-time clock is
strictly below that expiry; at and after expiry the highlight is inactive. -/
theorem C4_highlight_window :
    fixedHighlightDurationMs = 3500 ∧
    (∀ (s : AppState) (rand now : ℚ) (vw vh : ℕ) (pix : ℤ → ℤ → ℕ),
        s.currentPeople ≠ [] →
          (pickHandler s rand now vw vh pix).1.selectUntil =
            now + fixedHighlightDurationMs) ∧
    (∀ (i : ℕ) (tPick tRender : ℚ),
        isChosen (some i) i tRender (tPick + fixedHighlightDurationMs) = true ↔
          tRender < tPick + fixedHighlightDurationMs) := by
  refine ⟨rfl, ?_, ?_⟩
  · intro s rand now vw vh pix hne
    have hlen : s.currentPeople.length ≠ 0 := by
      simpa [List.length_eq_zero] using hne
    simp [pickHandler, hlen]
  · intro i tPick tRender
    simp [isChosen]

/-- Witness for C4: a pick at time `7` on a one-candidate state, rendered
at time `9`. -/
theorem C4_highlight_window_w :
    (pickHandler wState1 0 7 4 4 wPix).1.selectUntil =
        7 + fixedHighlightDurationMs ∧
      (isChosen (some 0) 0 9 (7 + fixedHighlightDurationMs) = true ↔
        (9 : ℚ) < 7 + fixedHighlightDurationMs) :=
  ⟨C4_highlight_window.2.1 wState1 0 7 4 4 wPix (by simp [wState1]),
   C4_highlight_window.2.2 0 7 9⟩

/-- C5: when the orientation is front-facing (`facingMode = "user"`), the
capture is horizontally mirrored: the two captures have the same width, and
for every row the pixel at column `c` of the front-orientation output equals
the pixel at column `width - 1 - c` of the rear-orientation (unmirrored)
capture of the same region. -/
theorem C5_mirror (det : Detection) (vw vh : ℕ) (pix : ℤ → ℤ → ℕ)
    (imgF imgR : CapturedImage) (c r : ℤ)
    (hF : captureSelectedCrop det vw vh pix "user" = some imgF)
    (hR : captureSelectedCrop det vw vh pix "environment" = some imgR) :
    imgF.width = imgR.width ∧
      imgF.pixel c r = imgR.pixel (imgR.width - 1 - c) r := by
  unfold captureSelectedCrop at hF hR
  by_cases h1 : vw = 0 ∨ vh = 0
  · rw [if_pos h1] at hF
    exact absurd hF (by simp)
  · rw [if_neg h1] at hF hR
    by_cases h2 : clampedW det vw ≤ 1 ∨ clampedH det vh ≤ 1
    · rw [if_pos h2] at hF
      exact absurd hF (by simp)
    · rw [if_neg h2, if_pos rfl] at hF
      rw [if_neg h2, if_neg (by decide : ¬ ("environment" = "user"))] at hR
      injection hF with hF
      injection hR with hR
      subst hF
      subst hR
      exact ⟨rfl, rfl⟩

/-- Witness for C5 on `wDet` in a 4×4 frame at output pixel `(0, 0)`. -/
theorem C5_mirror_w :
    wImgF.width = wImgR.width ∧
      wImgF.pixel 0 0 = wImgR.pixel (wImgR.width - 1 - 0) 0 :=
  C5_mirror wDet 4 4 wPix wImgF wImgR 0 0 rfl rfl

/-- C6: with known frame dimensions and a clamped box of width and height
both `≥ 2`, `captureSelectedCrop` returns a non-`none` image whose pixel
dimensions are exactly the clamped width by the clamped height. -/
theorem C6_capture_size (det : Detection) (vw vh : ℕ) (pix : ℤ → ℤ → ℕ)
    (fm : String) (hvw : vw ≠ 0) (hvh : vh ≠ 0)
    (hw : 2 ≤ clampedW det vw) (hh : 2 ≤ clampedH det vh) :
    ∃ img, captureSelectedCrop det vw vh pix fm = some img ∧
      img.width = clampedW det vw ∧ img.height = clampedH det vh := by
  unfold captureSelectedCrop
  rw [if_neg (by tauto), if_neg (by omega)]
  by_cases h3 : fm = "user"
  · rw [if_pos h3]
    exact ⟨_, rfl, rfl, rfl⟩
  · rw [if_neg h3]
    exact ⟨_, rfl, rfl, rfl⟩

/-- Witness for C6 on `wDet` (clamped box `2 × 2`) in a 4×4 frame. -/
theorem C6_capture_size_w :
    ∃ img, captureSelectedCrop wDet 4 4 wPix "environment" = some img ∧
      img.width = clampedW wDet 4 ∧ img.height = clampedH wDet 4 :=
  C6_capture_size wDet 4 4 wPix "environment" (by decide) (by decide)
    (le_of_eq (rfl : (2 : ℤ) = clampedW wDet 4))
    (le_of_eq (rfl : (2 : ℤ) = clampedH wDet 4))

/-- C8: if the stored selection index is out of range for the current
candidate list, rendering still succeeds: it rebuilds `currentPeople`,
draws one rectangle per candidate, and none of them carries the highlight —
the stale index is silently skipped. -/
theorem C8_stale_index (preds : List Detection) (minScore : ℚ) (k : ℕ)
    (selectUntil now : ℚ) (vw vh cw ch : ℕ)
    (hk : (filterPeople preds minScore).length ≤ k) :
    (draw preds minScore (some k) selectUntil now vw vh cw ch).1 =
        filterPeople preds minScore ∧
    (draw preds minScore (some k) selectUntil now vw vh cw ch).2.length =
        (filterPeople preds minScore).length ∧
    ∀ b ∈ (draw preds minScore (some k) selectUntil now vw vh cw ch).2,
        b.chosen = false := by
  refine ⟨rfl, ?_, ?_⟩
  · simp [draw, List.enum_length]
  · intro b hb
    simp only [draw, List.mem_map] at hb
    obtain ⟨⟨i, p⟩, hip, rfl⟩ := hb
    have hi : i < (filterPeople preds minScore).length := by
      have h2 := List.mem_enum_iff_getElem?.mp hip
      exact (List.getElem?_eq_some.mp h2).1
    have hki : ¬ (some k = some i) := by
      intro hcontr
      injection hcontr with hcontr
      omega
    simp [isChosen, hki]

/-- Witness for C8: a one-candidate frame rendered with stale index `5`. -/
theorem C8_stale_index_w :
    (draw [wDet] 0 (some 5) 0 0 4 4 4 4).1 = filterPeople [wDet] 0 ∧
    (draw [wDet] 0 (some 5) 0 0 4 4 4 4).2.length =
        (filterPeople [wDet] 0).length ∧
    ∀ b ∈ (draw [wDet] 0 (some 5) 0 0 4 4 4 4).2, b.chosen = false :=
  C8_stale_index [wDet] 0 5 0 0 4 4 4 4
    (by simp [filterPeople, wDet])

/-- C9: triggering a pick on an empty candidate list shows the transient
"no candidates" toast, makes no new selection (the stored index ends up
`none` and the expiry timestamp is untouched), passes nothing to the
spotlight, and is non-fatal: the `running` flag that gates the refresh loop
is unchanged. -/
theorem C9_empty_pick (s : AppState) (rand now : ℚ) (vw vh : ℕ)
    (pix : ℤ → ℤ → ℕ) (h : s.currentPeople = []) :
    (pickHandler s rand now vw vh pix).1.selectedIdx = none ∧
    (pickHandler s rand now vw vh pix).1.selectUntil = s.selectUntil ∧
    (pickHandler s rand now vw vh pix).1.running = s.running ∧
    (pickHandler s rand now vw vh pix).2.1 = [noStudentsToast] ∧
    (pickHandler s rand now vw vh pix).2.2 = none := by
  simp [pickHandler, h]

/-- Witness for C9 on a concrete empty-candidate state. -/
theorem C9_empty_pick_w :
    (pickHandler wEmptyState 0 0 4 4 wPix).1.selectedIdx = none ∧
    (pickHandler wEmptyState 0 0 4 4 wPix).1.selectUntil =
        wEmptyState.selectUntil ∧
    (pickHandler wEmptyState 0 0 4 4 wPix).1.running = wEmptyState.running ∧
    (pickHandler wEmptyState 0 0 4 4 wPix).2.1 = [noStudentsToast] ∧
    (pickHandler wEmptyState 0 0 4 4 wPix).2.2 = none :=
  C9_empty_pick wEmptyState 0 0 4 4 wPix rfl

/-- C10: triggering a pick while the candidate list is empty clears any
previously stored selection index — the index is set to `none` on this
error path rather than left unchanged. -/
theorem C10_empty_pick_clears (s : AppState) (rand now : ℚ) (vw vh : ℕ)
    (pix : ℤ → ℤ → ℕ) (k : ℕ) (hprev : s.selectedIdx = some k)
    (h : s.currentPeople = []) :
    (pickHandler s rand now vw vh pix).1.selectedIdx = none := by
  simp [pickHandler, h]

/-- Witness for C10 on an empty-candidate state that still stores index 2. -/
theorem C10_empty_pick_clears_w :
    (pickHandler wEmptyState 0 0 4 4 wPix).1.selectedIdx = none :=
  C10_empty_pick_clears wEmptyState 0 0 4 4 wPix 2 rfl rfl
